import Mathlib

/-!
Verification of the coordinator-worker fuzzing subsystem
(`src/internal/fuzz/worker.go`) against its natural-language specification.

The Go code is shallowly embedded: pure fragments become Lean functions,
the stateful parts (shared memory, the minimizer state captured by the
`tryMinimized` closure, the fuzz loop) become explicit state passing, and
panics / fallible operations are modelled with `Option`.  External
collaborators that the file `worker.go` only calls (the mutator, the
corpus (un)marshaller, coverage instrumentation, SHA-256, the context and
the monotonic clock) are abstracted as the fields of an `Ext` record, so
every theorem is quantified over their behavior.
-/

namespace FuzzWorker

/-- GoVal is the closed set of value variants carried by a corpus entry
(`CorpusEntry.Values`), as handled exhaustively by the minimizer in
`minimizeInput`.  Float payloads are carried as (opaque) bit patterns;
integer payloads as `Nat` / `Int`; strings and byte slices as byte lists.
The embedding models a 64-bit platform, where the Go types `uint` and
`int` are 64 bits wide. -/
inductive GoVal where
  | gBool (b : Bool)
  | gF32 (bits : Nat)
  | gF64 (bits : Nat)
  | gUint (n : Nat)
  | gU8 (n : Nat)
  | gU16 (n : Nat)
  | gU32 (n : Nat)
  | gU64 (n : Nat)
  | gInt (v : Int)
  | gI8 (v : Int)
  | gI16 (v : Int)
  | gI32 (v : Int)
  | gI64 (v : Int)
  | gStr (s : List Nat)
  | gBytes (b : List Nat)
deriving DecidableEq, Repr

/-- Ext bundles the external collaborators of `worker.go`: the user fuzz
function `fuzzFn` (returning `some msg` when the input "crashes"), the
coverage instrumentation (`covSnapAt i vs` is the global
`coverageSnapshot` after the i-th user-function call of the current RPC,
run on values `vs`; `newCovPos mask snap` models
`countNewCoverageBits(mask, snap) > 0`), the mutator (`mutate i vs` is
the in-place mutation performed at step i, absorbing the PRNG sequence),
the corpus serialization hooks `marshal` / `unmarshal`, the SHA-256 hash,
the per-call durations `durAt`, cancellation observation `ctxDone`
(indexed by how many user-function calls have been made), the
float64-to-float32 conversion, and the worker-process globals
(`coverageMask0` = `ws.coverageMask` before the call, `coverageEnabled`,
the PRNG state `prngState` saved into the shared-memory header, the
initial `coverageSnapshot` value `snap0`, and the elapsed-time value
`totalDur` observed by the deferred duration update). -/
structure Ext where
  fuzzFn : List GoVal → Option String
  covSnapAt : Nat → List GoVal → List Nat
  newCovPos : List Nat → List Nat → Bool
  mutate : Nat → List GoVal → List GoVal
  unmarshal : List Nat → Option (List GoVal)
  marshal : List GoVal → List Nat
  sha256 : List Nat → List Nat
  durAt : Nat → Nat
  ctxDone : Nat → Bool
  f64to32 : Nat → Nat
  coverageMask0 : Option (List Nat)
  coverageEnabled : Bool
  prngState : Nat × Nat
  snap0 : List Nat
  totalDur : Nat

/-- Modelled from the spec: `hasCoverageBit` (coverage instrumentation,
outside `worker.go`) reports whether the snapshot contains at least one
bit from the keep-coverage mask ("a candidate is accepted only if it
activates at least one bit of this mask"). -/
def hasCoverageBit (keep snap : List Nat) : Bool :=
  (List.zip keep snap).any fun p => decide (p.1 &&& p.2 ≠ 0)

/-- toSigned w n reinterprets the low w bits of n as a two's-complement
signed integer; it models the Go conversions from `uint` to the signed
integer types in `tryMinimized`. -/
def toSigned (w n : Nat) : Int :=
  let m := n % 2 ^ w
  if m < 2 ^ (w - 1) then (m : Int) else (m : Int) - 2 ^ w

/-- SharedMem models the shared-memory region as seen through its header
accessors and `valueRef` / `valueCopy` / `setValue`: the `count`,
`randState` and `randInc` header fields and the payload bytes `value`. -/
structure SharedMem where
  count : Int
  randState : Nat
  randInc : Nat
  value : List Nat
deriving DecidableEq, Repr

/- ===================== RPC argument and response records ============ -/

/-- FuzzArgs embeds the Go struct `fuzzArgs`. -/
structure FuzzArgs where
  Timeout : Nat := 0
  Limit : Int := 0
  Warmup : Bool := false
  CoverageData : Option (List Nat) := none
deriving DecidableEq, Repr

/-- MinimizeArgs embeds the Go struct `minimizeArgs`. -/
structure MinimizeArgs where
  Timeout : Nat := 0
  Limit : Int := 0
  KeepCoverage : Option (List Nat) := none
deriving DecidableEq, Repr

/-- FuzzResponse embeds the Go struct `fuzzResponse`. -/
structure FuzzResponse where
  TotalDuration : Nat := 0
  InterestingDuration : Nat := 0
  Count : Int := 0
  CoverageData : Option (List Nat) := none
  Err : String := ""
deriving DecidableEq, Repr

/-- MinimizeResponse embeds the Go struct `minimizeResponse`. -/
structure MinimizeResponse where
  Success : Bool := false
  Err : String := ""
  CoverageData : Option (List Nat) := none
  Duration : Nat := 0
  Count : Int := 0
deriving DecidableEq, Repr

/- ===================== workerServer.serve dispatch ================== -/

/-- Call embeds the Go struct `call`: the RPC request record with its
three optional variants. -/
structure Call where
  Ping : Option Unit := none
  Fuzz : Option FuzzArgs := none
  Minimize : Option MinimizeArgs := none
deriving DecidableEq, Repr

/-- Method names the worker-server method dispatched for one call record. -/
inductive Method where
  | fuzz
  | minimize
  | ping
deriving DecidableEq, Repr

/-- dispatchOf embeds the `switch` in `workerServer.serve`: the first
populated variant in the order Fuzz, Minimize, Ping selects the method;
with no populated variant serve returns the framing error
(`none` here). -/
def dispatchOf (c : Call) : Option Method :=
  if c.Fuzz.isSome then some Method.fuzz
  else if c.Minimize.isSome then some Method.minimize
  else if c.Ping.isSome then some Method.ping
  else none

/-- serveCalls embeds the read-dispatch-respond loop of
`workerServer.serve` over an already-decoded list of call records
(decoder EOF = end of list): it returns the sequence of dispatched
methods and, when a record with no populated variant is hit, the framing
error message, processing nothing further. -/
def serveCalls : List Call → List Method × Option String
  | [] => ([], none)
  | c :: rest =>
    match dispatchOf c with
    | some m =>
      let r := serveCalls rest
      (m :: r.1, r.2)
    | none => ([], some "no arguments provided for any call")

/-- populatedCount counts the populated variants of a call record. -/
def populatedCount (c : Call) : Nat :=
  (if c.Ping.isSome then 1 else 0) +
    (if c.Fuzz.isSome then 1 else 0) +
    (if c.Minimize.isSome then 1 else 0)

/- ===================== minimizeInput: shouldStop ==================== -/

/-- shouldStopGo embeds the `shouldStop` closure of
`workerServer.minimizeInput`, as a pure function of the state it reads:
the observed cancellation status `ctxErr` (`ctx.Err() != nil`), the
`limit` argument, the current shared-memory `count`, the named return
`retErr`, and the captured `wantError` flag
(`wantError = (keepCoverage == nil)`). -/
def shouldStopGo (ctxErr : Bool) (limit count : Int) (retErr : Option String)
    (wantError : Bool) : Bool :=
  ctxErr || (decide (limit > 0) && decide (count ≥ limit)) ||
    (retErr.isSome && !wantError)

/-- shouldStopClaimed follows the words of the specification sentence for
claim C3: halt on cancellation, on the limit being reached, or — in
crash-preservation mode (`wantError = true`) — once an error is in hand.
(The vague trailing clause "and further attempts stop reproducing it" is
dropped, which only makes this predicate more generous; any stricter
reading is also confined to crash-preservation mode.) -/
def shouldStopClaimed (ctxErr : Bool) (limit count : Int) (retErr : Option String)
    (wantError : Bool) : Bool :=
  ctxErr || (decide (limit > 0) && decide (count ≥ limit)) ||
    (retErr.isSome && wantError)

/- ===================== minimizeInput ================================ -/

/-- MinState is the mutable state threaded through `minimizeInput` and
its closures: the value vector `vals` (mutated in place in Go), the
shared-memory header counter `count` (reached through the `count`
pointer), the number of user-function calls made so far in this RPC
(`calls`, used to index the coverage and cancellation oracles), the
named return `retErr`, and the current value of the global
`coverageSnapshot` (`snap`). -/
structure MinState where
  vals : List GoVal
  count : Int
  calls : Nat
  retErr : Option String
  snap : List Nat
deriving DecidableEq, Repr

/-- Cand is the candidate passed to `tryMinimized` by the three external
shrinkers: `minimizeFloat` passes a float64 (bit pattern),
`minimizeInteger` a `uint` word, `minimizeBytes` a byte slice. -/
inductive Cand where
  | cF (bits : Nat)
  | cU (n : Nat)
  | cB (bs : List Nat)
deriving DecidableEq, Repr

/-- castCand embeds the cast `switch` at the top of `tryMinimized`: the
candidate is converted to the variant of the previous value in the slot;
a variant mismatch is the `panic("impossible")` path (`none`). -/
def castCand (E : Ext) (prev : GoVal) (cand : Cand) : Option GoVal :=
  match cand, prev with
  | .cF c, .gF32 _ => some (.gF32 (E.f64to32 c))
  | .cF c, .gF64 _ => some (.gF64 c)
  | .cU c, .gUint _ => some (.gUint c)
  | .cU c, .gU8 _ => some (.gU8 (c % 2 ^ 8))
  | .cU c, .gU16 _ => some (.gU16 (c % 2 ^ 16))
  | .cU c, .gU32 _ => some (.gU32 (c % 2 ^ 32))
  | .cU c, .gU64 _ => some (.gU64 c)
  | .cU c, .gInt _ => some (.gInt (toSigned 64 c))
  | .cU c, .gI8 _ => some (.gI8 (toSigned 8 c))
  | .cU c, .gI16 _ => some (.gI16 (toSigned 16 c))
  | .cU c, .gI32 _ => some (.gI32 (toSigned 32 c))
  | .cU c, .gI64 _ => some (.gI64 (toSigned 64 c))
  | .cB c, .gBytes _ => some (.gBytes c)
  | .cB c, .gStr _ => some (.gStr c)
  | _, _ => none

/-- tryMinimized embeds the per-attempt predicate closure of
`minimizeInput`: cast the candidate to the slot variant, replace
`vals[valI]`, increment `count`, run the user function, and return true
iff the result is interesting for the same reason as the original input
— an error when one was expected, or preserved coverage.  The slot is
restored (`vals[valI] = prev`) only on the path where the run neither
errors nor (in coverage mode) keeps a masked bit.  `none` models the
`panic("impossible")` on a candidate/slot variant mismatch (or an
out-of-range index). -/
def tryMinimized (E : Ext) (keep : Option (List Nat)) (valI : Nat)
    (st : MinState) (cand : Cand) : Option (Bool × MinState) :=
  let wantError := keep.isNone
  match st.vals.get? valI with
  | none => none
  | some prev =>
    match castCand E prev cand with
    | none => none
    | some v =>
      let vals1 := st.vals.set valI v
      let count1 := st.count + 1
      match E.fuzzFn vals1 with
      | some e =>
        some (wantError,
          ⟨vals1, count1, st.calls + 1, some e, E.covSnapAt st.calls vals1⟩)
      | none =>
        let snap1 := E.covSnapAt st.calls vals1
        match keep with
        | some k =>
          if hasCoverageBit k snap1 then
            some (true, ⟨vals1, count1, st.calls + 1, st.retErr, snap1⟩)
          else
            some (false,
              ⟨vals1.set valI prev, count1, st.calls + 1, st.retErr, snap1⟩)
        | none =>
          some (false,
            ⟨vals1.set valI prev, count1, st.calls + 1, st.retErr, snap1⟩)

/-- minShouldStop reads the `shouldStop` closure on the live state. -/
def minShouldStop (E : Ext) (limit : Int) (keep : Option (List Nat))
    (st : MinState) : Bool :=
  shouldStopGo (E.ctxDone st.calls) limit st.count st.retErr keep.isNone

/-- Modelled from the spec: the external shrinkers `minimizeFloat`,
`minimizeInteger` and `minimizeBytes` (outside `worker.go`) each
"repeatedly propose smaller candidates and respect `shouldStop`"; their
internal algorithms are out of scope.  They are modelled as an arbitrary
finite candidate sequence for the slot, attempted through `tryMinimized`
with `shouldStop` consulted before every attempt. -/
def minShrinkSlot (E : Ext) (limit : Int) (keep : Option (List Nat))
    (valI : Nat) : List Cand → MinState → Option MinState
  | [], st => some st
  | cand :: cs, st =>
    if minShouldStop E limit keep st then some st
    else
      match tryMinimized E keep valI st cand with
      | none => none
      | some r => minShrinkSlot E limit keep valI cs r.2

/-- i64wrapped reports whether an `int64` value survives the round trip
through the platform `int` (the skip guard `int64(int(v)) != v`); on the
64-bit platform modelled here it holds exactly for in-range values. -/
def i64wrapped (v : Int) : Int :=
  toSigned 64 (v % 2 ^ 64).toNat

/-- minLoopGo embeds the `for valI = range vals` loop of `minimizeInput`
over the (remaining) slot indices: `shouldStop` is consulted at the top
of each iteration (`break`), booleans are skipped, 64-bit integers whose
value would be truncated by the platform-word cast are skipped, and every
other variant dispatches to its shrinker with the `tryMinimized`
predicate; `slots valI` is the candidate sequence the external shrinker
proposes for slot `valI`. -/
def minLoopGo (E : Ext) (limit : Int) (keep : Option (List Nat))
    (slots : Nat → List Cand) : List Nat → MinState → Option MinState
  | [], st => some st
  | valI :: rest, st =>
    if minShouldStop E limit keep st then some st
    else
      match st.vals.get? valI with
      | none => none
      | some v =>
        let step : Option MinState :=
          match v with
          | .gBool _ => some st
          | .gU64 n =>
            if n % 2 ^ 64 ≠ n then some st
            else minShrinkSlot E limit keep valI (slots valI) st
          | .gI64 i =>
            if i64wrapped i ≠ i then some st
            else minShrinkSlot E limit keep valI (slots valI) st
          | _ => minShrinkSlot E limit keep valI (slots valI) st
        match step with
        | none => none
        | some st1 => minLoopGo E limit keep slots rest st1

/-- minimizeInput embeds `workerServer.minimizeInput`: the initial
`shouldStop` check, the verification run of the original values with its
three flake/error exits, the shrinking loop over all slots, and the final
result `(wantError || retErr == nil, retErr)`.  The returned state holds
the final `vals`, `count` and `retErr`; `none` models a panic inside the
loop. -/
def minimizeInput (E : Ext) (vals0 : List GoVal) (count0 limit : Int)
    (keep : Option (List Nat)) (slots : Nat → List Cand) :
    Option (Bool × MinState) :=
  let wantError := keep.isNone
  let st0 : MinState := ⟨vals0, count0, 0, none, E.snap0⟩
  if minShouldStop E limit keep st0 then some (false, st0)
  else
    let retErr1 := E.fuzzFn vals0
    let snap1 := E.covSnapAt 0 vals0
    let st1 : MinState := ⟨vals0, count0 + 1, 1, retErr1, snap1⟩
    if retErr1.isNone && wantError then some (false, st1)
    else if retErr1.isSome && !wantError then some (false, st1)
    else if (match keep with
             | some k => !hasCoverageBit k snap1
             | none => false) then some (false, st1)
    else
      match minLoopGo E limit keep slots (List.range vals0.length) st1 with
      | none => none
      | some st2 => some (wantError || st2.retErr.isNone, st2)

/-- wsMinimize embeds `workerServer.minimize`: decode the values from
shared memory (panic on failure), run `minimizeInput` against the header
counter, write the marshalled shrunken values back to the payload only on
success, set `Err` from the returned error, and set `CoverageData` to the
current coverage snapshot only when minimization succeeded without an
error.  The `Duration` field is filled by the deferred clock read. -/
def wsMinimize (E : Ext) (args : MinimizeArgs) (mem : SharedMem)
    (slots : Nat → List Cand) : Option (MinimizeResponse × SharedMem) :=
  match E.unmarshal mem.value with
  | none => none
  | some vals0 =>
    match minimizeInput E vals0 mem.count args.Limit args.KeepCoverage slots with
    | none => none
    | some r =>
      let st := r.2
      let mem1 : SharedMem := { mem with count := st.count }
      let mem2 : SharedMem :=
        if r.1 then { mem1 with value := E.marshal st.vals } else mem1
      let resp : MinimizeResponse :=
        { Success := r.1
          Err := st.retErr.getD ""
          CoverageData :=
            if st.retErr.isNone && r.1 then some st.snap else none
          Duration := E.totalDur }
      some (resp, mem2)

/- ===================== concrete external collaborators ============== -/

/-- extBoom instantiates the external collaborators with a user function
that reports the error "boom" on every input; it is used to evaluate the
verified functions on concrete inputs. -/
def extBoom : Ext where
  fuzzFn := fun _ => some "boom"
  covSnapAt := fun _ _ => [0]
  newCovPos := fun _ _ => false
  mutate := fun _ vs => vs
  unmarshal := fun _ => some []
  marshal := fun _ => []
  sha256 := fun _ => List.replicate 32 0
  durAt := fun _ => 0
  ctxDone := fun _ => false
  f64to32 := fun n => n
  coverageMask0 := none
  coverageEnabled := false
  prngState := (0, 0)
  snap0 := []
  totalDur := 0

/-- extOk instantiates the external collaborators with a user function
that never reports an error. -/
def extOk : Ext :=
  { extBoom with fuzzFn := fun _ => none }

/- ===================== theorems: C2 and C3 ========================== -/

/-- Claim C2 counterexample: a call record with two populated variants
(Fuzz and Ping) is not rejected with a framing error; serve dispatches
the fuzz method and continues.  The claim says such a record terminates
the server with a framing error instead of dispatching any method. -/
theorem c2_counterexample :
    populatedCount { Ping := some (), Fuzz := some {} } = 2 ∧
      dispatchOf { Ping := some (), Fuzz := some {} } = some Method.fuzz ∧
      serveCalls [{ Ping := some (), Fuzz := some {} }] = ([Method.fuzz], none) := by
  refine ⟨rfl, rfl, rfl⟩

/-- Claim C2 (amended): a call record with zero populated variants makes
serve terminate with the framing error, dispatching nothing further; a
record with at least one populated variant dispatches the first populated
variant in the order Fuzz, Minimize, Ping — in particular, when exactly
one variant is populated, the corresponding method is dispatched.  (More
than one populated variant is not rejected.) -/
theorem c2_serve_dispatch (c : Call) (rest : List Call) :
    (dispatchOf c = none ↔ c.Ping = none ∧ c.Fuzz = none ∧ c.Minimize = none) ∧
      (dispatchOf c = none →
        serveCalls (c :: rest) = ([], some "no arguments provided for any call")) ∧
      (c.Fuzz.isSome → dispatchOf c = some Method.fuzz) ∧
      (c.Fuzz = none → c.Minimize.isSome → dispatchOf c = some Method.minimize) ∧
      (c.Fuzz = none → c.Minimize = none → c.Ping.isSome →
        dispatchOf c = some Method.ping) := by
  obtain ⟨p, f, m⟩ := c
  refine ⟨?_, ?_, ?_, ?_, ?_⟩ <;>
    cases p <;> cases f <;> cases m <;> simp [dispatchOf, serveCalls]

/-- Claim C2 witness: the amended characterization evaluated on a
concrete record populating only Minimize. -/
theorem c2_serve_dispatch_witness :
    dispatchOf { Minimize := some {} } = some Method.minimize :=
  (c2_serve_dispatch { Minimize := some {} } []).2.2.2.1 rfl rfl

/-- Auxiliary: writing a candidate into a slot and then writing back the
previously read value restores the original list. -/
theorem set_set_restore {α : Type} :
    ∀ (l : List α) (n : Nat) (a v : α), l.get? n = some a →
      (l.set n v).set n a = l
  | [], n, a, v, h => by simp at h
  | b :: t, 0, a, v, h => by
    simp only [List.get?] at h
    simp [Option.some.injEq] at h
    simp [List.set, h]
  | b :: t, n + 1, a, v, h => by
    simp only [List.get?] at h
    simp [List.set, set_set_restore t n a v h]

/-- Auxiliary: writing back the value previously read from a slot leaves
the list unchanged. -/
theorem set_self_of_get {α : Type} :
    ∀ (l : List α) (n : Nat) (a : α), l.get? n = some a → l.set n a = l
  | [], n, a, h => by simp at h
  | b :: t, 0, a, h => by
    simp only [List.get?, Option.some.injEq] at h
    simp [List.set, h]
  | b :: t, n + 1, a, h => by
    simp only [List.get?] at h
    simp [List.set, set_self_of_get t n a h]

/-- Claim C1 counterexample: in coverage-preservation mode
(`keepCoverage` non-nil), when the candidate run errors, `tryMinimized`
returns false (the target is not satisfied) yet the slot still holds the
candidate — the original value is not restored, contradicting the claim
that on a false result the slot is restored before `tryMinimized`
returns. -/
theorem c1_counterexample :
    tryMinimized extBoom (some [1]) 0
        ⟨[GoVal.gBytes [2]], 0, 0, none, []⟩ (Cand.cB []) =
      some (false, ⟨[GoVal.gBytes []], 1, 1, some "boom", [0]⟩) ∧
      [GoVal.gBytes []] ≠ [GoVal.gBytes [2]] :=
  ⟨rfl, by decide⟩

/-- tryMinimizedKept states, following the amended claim, the boolean
result and value vector `tryMinimized` must produce for a candidate cast
to `v`: on an error the candidate stays and the result is `wantError`
(so in coverage-preservation mode the slot is NOT restored); with no
error the candidate stays exactly when it preserves a masked coverage
bit, and otherwise the slot is restored. -/
def tryMinimizedKept (E : Ext) (keep : Option (List Nat)) (valI : Nat)
    (st : MinState) (v : GoVal) : Bool × List GoVal :=
  match E.fuzzFn (st.vals.set valI v), keep with
  | some _, none => (true, st.vals.set valI v)
  | some _, some _ => (false, st.vals.set valI v)
  | none, some k =>
    if hasCoverageBit k (E.covSnapAt st.calls (st.vals.set valI v)) then
      (true, st.vals.set valI v)
    else (false, st.vals)
  | none, none => (false, st.vals)

/-- tryMinimizedErr states the error recorded by one `tryMinimized`
attempt: the error of the candidate run if there is one, the previous
`retErr` otherwise. -/
def tryMinimizedErr (E : Ext) (valI : Nat) (st : MinState) (v : GoVal) :
    Option String :=
  match E.fuzzFn (st.vals.set valI v) with
  | some e => some e
  | none => st.retErr

/-- Claim C1 (amended): in `tryMinimized`, when the candidate run
satisfies the minimization target the (cast) candidate is kept and true
is returned; when the run does not error but fails the target the slot is
restored to its original value and false is returned; but when the run
errors in coverage-preservation mode, false is returned with the
candidate still in the slot (no restoration) — the recorded error makes
`shouldStop` true, halting further shrinking, and minimization reports
failure, so the un-restored vector is never written to shared memory. -/
theorem c1_tryMinimized (E : Ext) (keep : Option (List Nat)) (valI : Nat)
    (st : MinState) (cand : Cand) (prev v : GoVal) (b : Bool) (st1 : MinState)
    (hprev : st.vals.get? valI = some prev)
    (hcast : castCand E prev cand = some v)
    (hrun : tryMinimized E keep valI st cand = some (b, st1)) :
    (b, st1.vals) = tryMinimizedKept E keep valI st v ∧
      st1.retErr = tryMinimizedErr E valI st v := by
  simp only [tryMinimized, hprev, hcast] at hrun
  cases hfz : E.fuzzFn (st.vals.set valI v) with
  | some e =>
    rw [hfz] at hrun
    cases keep with
    | none =>
      simp only [Option.isNone_none, Option.some.injEq, Prod.mk.injEq] at hrun
      obtain ⟨hb, hst⟩ := hrun
      subst hb
      subst hst
      simp [tryMinimizedKept, tryMinimizedErr, hfz]
    | some k =>
      simp only [Option.isNone_some, Option.some.injEq, Prod.mk.injEq] at hrun
      obtain ⟨hb, hst⟩ := hrun
      subst hb
      subst hst
      simp [tryMinimizedKept, tryMinimizedErr, hfz]
  | none =>
    rw [hfz] at hrun
    cases keep with
    | none =>
      simp only [Option.some.injEq, Prod.mk.injEq] at hrun
      obtain ⟨hb, hst⟩ := hrun
      subst hb
      subst hst
      simp [tryMinimizedKept, tryMinimizedErr, hfz,
        set_set_restore st.vals valI prev v hprev]
    | some k =>
      cases hc : hasCoverageBit k (E.covSnapAt st.calls (st.vals.set valI v)) with
      | true =>
        simp [hc] at hrun
        obtain ⟨hb, hst⟩ := hrun
        subst hb
        subst hst
        simp [tryMinimizedKept, tryMinimizedErr, hfz, hc]
      | false =>
        simp [hc] at hrun
        obtain ⟨hb, hst⟩ := hrun
        subst hb
        subst hst
        simp [tryMinimizedKept, tryMinimizedErr, hfz, hc,
          set_self_of_get st.vals valI prev hprev]

/-- Claim C1 witness: the amended characterization evaluated on a
crash-preservation attempt whose run does not error, so the slot is
restored and the attempt is rejected. -/
theorem c1_tryMinimized_witness :
    ((false, [GoVal.gBytes [2]]) = (false, [GoVal.gBytes [2]])) ∧
      (none : Option String) = none :=
  c1_tryMinimized extOk none 0 ⟨[GoVal.gBytes [2]], 0, 0, none, []⟩
    (Cand.cB []) (GoVal.gBytes [2]) (GoVal.gBytes []) false
    ⟨[GoVal.gBytes [2]], 1, 1, none, [0]⟩ rfl rfl rfl

/-- Claim C3 counterexample: the third disjunct of `shouldStop` fires in
coverage-preservation mode, not in crash-preservation mode.  With no
cancellation, no limit, and an error in hand, the code halts when
`wantError = false` (coverage mode) — where the claimed predicate does
not — and does not halt when `wantError = true` (crash mode) — where the
claimed predicate does. -/
theorem c3_counterexample :
    shouldStopGo false 0 0 (some "boom") false = true ∧
      shouldStopClaimed false 0 0 (some "boom") false = false ∧
      shouldStopGo false 0 0 (some "boom") true = false ∧
      shouldStopClaimed false 0 0 (some "boom") true = true := by
  refine ⟨rfl, rfl, rfl, rfl⟩

/-- Claim C3 (amended): the `shouldStop` closure of `minimizeInput`
returns true exactly when the cancellation token has fired, or when
`limit > 0` and `count` has reached `limit`, or — in
coverage-preservation mode (`keepCoverage` non-nil, `wantError = false`)
— once an error has been recorded in `retErr`; in no other state does it
halt shrinking.  (The claim attributed the third condition to
crash-preservation mode.) -/
theorem c3_shouldStop (ctxErr : Bool) (limit count : Int) (retErr : Option String)
    (wantError : Bool) :
    shouldStopGo ctxErr limit count retErr wantError = true ↔
      (ctxErr = true ∨ (limit > 0 ∧ count ≥ limit) ∨
        (retErr ≠ none ∧ wantError = false)) := by
  cases ctxErr <;> cases retErr <;> cases wantError <;>
    simp [shouldStopGo, Option.isSome]

/-- Claim C9: in crash-preservation mode (`keepCoverage` nil), once the
initial verification run of the original values produces an error,
`minimizeInput` returns success = true — even if every subsequent shrink
candidate is rejected — because its result is `wantError || retErr == nil`
and `wantError` is true; consequently a crash-mode minimize RPC whose
verification reproduces the crash never reports `Success = false`. -/
theorem c9_crash_minimize_success (E : Ext) (vals0 : List GoVal)
    (count0 limit : Int) (slots : Nat → List Cand) (e : String) (b : Bool)
    (st : MinState) (args : MinimizeArgs) (mem : SharedMem)
    (resp : MinimizeResponse) (mem2 : SharedMem)
    (hstop : minShouldStop E limit none ⟨vals0, count0, 0, none, E.snap0⟩ = false)
    (herr : E.fuzzFn vals0 = some e)
    (hrun : minimizeInput E vals0 count0 limit none slots = some (b, st))
    (hargs1 : args.KeepCoverage = none) (hargs2 : args.Limit = limit)
    (hmem : E.unmarshal mem.value = some vals0) (hcount : mem.count = count0)
    (hws : wsMinimize E args mem slots = some (resp, mem2)) :
    b = true ∧ resp.Success = true := by
  have hb : b = true := by
    simp only [minimizeInput, hstop, herr] at hrun
    simp only [Option.isNone_some, Option.isSome_some, Option.isNone_none,
      Bool.false_and, Bool.and_false, Bool.not_true, Bool.true_or,
      if_false, Bool.false_eq_true] at hrun
    cases hloop : minLoopGo E limit none slots (List.range vals0.length)
        ⟨vals0, count0 + 1, 1, some e, E.covSnapAt 0 vals0⟩ with
    | none => rw [hloop] at hrun; cases hrun
    | some st2 =>
      rw [hloop] at hrun
      simp only [Option.some.injEq, Prod.mk.injEq] at hrun
      obtain ⟨hb1, _⟩ := hrun
      exact hb1.symm
  refine ⟨hb, ?_⟩
  simp only [wsMinimize, hmem, hcount, hargs1, hargs2, hrun] at hws
  simp only [Option.some.injEq, Prod.mk.injEq] at hws
  obtain ⟨hresp, _⟩ := hws
  rw [← hresp, hb]

/-- Claim C9 witness: with a user function that always errors, a
crash-mode minimize over an empty value vector succeeds. -/
theorem c9_crash_minimize_success_witness : true = true ∧ true = true :=
  c9_crash_minimize_success extBoom [] 0 0 (fun _ => []) "boom" true
    ⟨[], 1, 1, some "boom", [0]⟩ {} ⟨0, 0, 0, []⟩
    { Success := true, Err := "boom", CoverageData := none, Duration := 0 }
    ⟨1, 0, 0, []⟩ rfl rfl rfl rfl rfl rfl rfl rfl

/-- Claim C5: for every minimize RPC handled by the worker server, the
payload region of shared memory is overwritten (with the marshalled
shrunken values) exactly when minimization succeeds and is left unchanged
otherwise; `Success` is exactly the success result of `minimizeInput`;
`CoverageData` is the coverage snapshot if and only if minimization
succeeded without an error; `Err` is the recorded error text (empty when
none); and the header counter carries the final count. -/
theorem c5_wsMinimize_frame (E : Ext) (args : MinimizeArgs) (mem : SharedMem)
    (slots : Nat → List Cand) (vals0 : List GoVal) (b : Bool) (st : MinState)
    (resp : MinimizeResponse) (mem2 : SharedMem)
    (hu : E.unmarshal mem.value = some vals0)
    (hmi : minimizeInput E vals0 mem.count args.Limit args.KeepCoverage slots =
      some (b, st))
    (hws : wsMinimize E args mem slots = some (resp, mem2)) :
    resp.Success = b ∧
      mem2.value = (if b then E.marshal st.vals else mem.value) ∧
      resp.CoverageData = (if st.retErr.isNone && b then some st.snap else none) ∧
      resp.Err = st.retErr.getD "" ∧
      mem2.count = st.count := by
  simp only [wsMinimize, hu, hmi, Option.some.injEq, Prod.mk.injEq] at hws
  obtain ⟨hresp, hmem2⟩ := hws
  subst hresp
  subst hmem2
  cases b <;> simp

/-- Claim C5 witness: a crash-mode minimize that reproduces the crash of
the original (empty) value vector: the payload is rewritten with the
marshalled values, `Success` is true, `Err` carries the error, and no
coverage data is attached. -/
theorem c5_wsMinimize_frame_witness :
    true = true ∧
      ([] : List Nat) = (if true then [] else []) ∧
      (none : Option (List Nat)) = none ∧
      "boom" = "boom" ∧ (1 : Int) = 1 :=
  c5_wsMinimize_frame extBoom {} ⟨0, 0, 0, []⟩ (fun _ => []) [] true
    ⟨[], 1, 1, some "boom", [0]⟩
    { Success := true, Err := "boom", CoverageData := none, Duration := 0 }
    ⟨1, 0, 0, []⟩ rfl rfl rfl

/- ===================== workerServer.fuzz ============================ -/

/-- errMsgOf models the error-message extraction in `fuzzOnce`: an empty
error text is replaced by a placeholder. -/
def errMsgOf (e : String) : String :=
  if e = "" then "fuzz function failed with no input" else e

/-- OnceRes is the result of one `fuzzOnce` call inside
`workerServer.fuzz`: the updated shared memory (the counter was
incremented), the elapsed duration, the coverage snapshot when new
coverage was observed, and the error message ("" when none). -/
structure OnceRes where
  mem : SharedMem
  dur : Nat
  cov : Option (List Nat)
  errMsg : String
deriving DecidableEq, Repr

/-- fuzzOnce embeds the `fuzzOnce` closure of `workerServer.fuzz`:
increment the header counter, run the user function, and report either
its error message (with the empty-message placeholder) or — when a local
coverage mask is installed and the run exposes a counter not in the mask
— the coverage snapshot.  Only header fields of shared memory change. -/
def fuzzOnce (E : Ext) (mask : Option (List Nat)) (ci : Nat)
    (vals : List GoVal) (mem : SharedMem) : OnceRes where
  mem := { mem with count := mem.count + 1 }
  dur := E.durAt ci
  cov :=
    match E.fuzzFn vals, mask with
    | none, some m =>
      if E.newCovPos m (E.covSnapAt ci vals) then some (E.covSnapAt ci vals)
      else none
    | _, _ => none
  errMsg :=
    match E.fuzzFn vals with
    | some e => errMsgOf e
    | none => ""

/-- fuzzShouldStop embeds the `shouldStop` closure of
`workerServer.fuzz`. -/
def fuzzShouldStop (args : FuzzArgs) (mem : SharedMem) : Bool :=
  decide (args.Limit > 0) && decide (mem.count ≥ args.Limit)

/-- FuzzCore collects the response fields assigned inside the fuzz loop
(`Count` and `TotalDuration` are filled by the deferred updates). -/
structure FuzzCore where
  InterestingDuration : Nat := 0
  CoverageData : Option (List Nat) := none
  Err : String := ""
deriving DecidableEq, Repr

/-- fuzzLoop embeds the main loop of `workerServer.fuzz` (fuel-indexed;
`none` means the fuel ran out before the loop returned): on each
iteration, return the accumulated response if the context is done;
otherwise mutate the values in place, run them once, and return on an
error; on new coverage, re-run the identical values once to deflake
(unless `shouldStop`), returning the error or the still-new coverage;
otherwise return when `shouldStop` and loop on.  The third component
accumulates the inputs passed to the user function. -/
def fuzzLoop (E : Ext) (args : FuzzArgs) (mask : Option (List Nat)) :
    Nat → Nat → Nat → List GoVal → SharedMem → List (List GoVal) →
    Option (FuzzCore × SharedMem × List (List GoVal))
  | 0, _, _, _, _, _ => none
  | fuel + 1, i, ci, vals, mem, tr =>
    if E.ctxDone ci then some ({}, mem, tr)
    else
      let vals1 := E.mutate i vals
      let r1 := fuzzOnce E mask ci vals1 mem
      if r1.errMsg ≠ "" then some ({ Err := r1.errMsg }, r1.mem, tr ++ [vals1])
      else
        match r1.cov with
        | some c =>
          if fuzzShouldStop args r1.mem then
            some ({ InterestingDuration := r1.dur, CoverageData := some c },
              r1.mem, tr ++ [vals1])
          else
            let r2 := fuzzOnce E mask (ci + 1) vals1 r1.mem
            if r2.errMsg ≠ "" then
              some ({ Err := r2.errMsg }, r2.mem, tr ++ [vals1, vals1])
            else
              match r2.cov with
              | some c2 =>
                some ({ InterestingDuration := r2.dur, CoverageData := some c2 },
                  r2.mem, tr ++ [vals1, vals1])
              | none =>
                if fuzzShouldStop args r2.mem then
                  some ({}, r2.mem, tr ++ [vals1, vals1])
                else
                  fuzzLoop E args mask fuel (i + 1) (ci + 2) vals1 r2.mem
                    (tr ++ [vals1, vals1])
        | none =>
          if fuzzShouldStop args r1.mem then some ({}, r1.mem, tr ++ [vals1])
          else fuzzLoop E args mask fuel (i + 1) (ci + 1) vals1 r1.mem
            (tr ++ [vals1])

/-- wsFuzz embeds `workerServer.fuzz`: install the coverage mask
(panicking on a length mismatch), save the PRNG state into the header,
check the counter against the limit (panic when already reached), decode
the values from shared memory (panic on failure), then either run once in
warmup mode or enter the fuzz loop.  The result carries the response, the
final shared memory, and the list of inputs passed to the user function;
`none` models a panic (or exhausted loop fuel). -/
def wsFuzz (E : Ext) (args : FuzzArgs) (mem0 : SharedMem) (fuel : Nat) :
    Option (FuzzResponse × SharedMem × List (List GoVal)) :=
  match (match args.CoverageData, E.coverageMask0 with
         | some d, some m => if d.length ≠ m.length then none else some (some d)
         | some d, none => some (some d)
         | none, m => some m : Option (Option (List Nat))) with
  | none => none
  | some mask =>
    let mem : SharedMem :=
      { mem0 with randState := E.prngState.1, randInc := E.prngState.2 }
    if decide (args.Limit > 0) && decide (mem.count ≥ args.Limit) then none
    else
      match E.unmarshal mem.value with
      | none => none
      | some vals0 =>
        if args.Warmup then
          let r := fuzzOnce E mask 0 vals0 mem
          if r.errMsg ≠ "" then
            some ({ TotalDuration := E.totalDur, Count := r.mem.count,
                    Err := r.errMsg }, r.mem, [vals0])
          else
            some ({ TotalDuration := E.totalDur, Count := r.mem.count,
                    InterestingDuration := r.dur,
                    CoverageData :=
                      if E.coverageEnabled then some (E.covSnapAt 0 vals0)
                      else none }, r.mem, [vals0])
        else
          match fuzzLoop E args mask fuel 0 0 vals0 mem [] with
          | none => none
          | some (core, mem2, tr) =>
            some ({ TotalDuration := E.totalDur, Count := mem2.count,
                    InterestingDuration := core.InterestingDuration,
                    CoverageData := core.CoverageData,
                    Err := core.Err }, mem2, tr)

/-- fuzzInputModified embeds the client-side check
`!bytes.Equal(inp, mem.valueRef())` in `workerClient.fuzz`, whose true
outcome is the fatal fault `panic("workerServer.fuzz modified input")`
rather than a recoverable error. -/
def fuzzInputModified (inp : List Nat) (mem : SharedMem) : Bool :=
  decide (inp ≠ mem.value)

/-- Auxiliary: the message produced by `errMsgOf` is never empty (an
empty user error is replaced by the placeholder). -/
theorem errMsgOf_ne (e : String) : errMsgOf e ≠ "" := by
  unfold errMsgOf
  split
  · decide
  · assumption

/-- Auxiliary: the fuzz loop never writes the shared-memory payload; the
only effect of each iteration on shared memory is the counter increment
performed by `fuzzOnce`. -/
theorem fuzzLoop_value (E : Ext) (args : FuzzArgs) (mask : Option (List Nat))
    (fuel : Nat) :
    ∀ (i ci : Nat) (vals : List GoVal) (mem : SharedMem)
      (tr : List (List GoVal)) (core : FuzzCore) (mem2 : SharedMem)
      (tr2 : List (List GoVal)),
      fuzzLoop E args mask fuel i ci vals mem tr = some (core, mem2, tr2) →
      mem2.value = mem.value := by
  induction fuel with
  | zero =>
    intro i ci vals mem tr core mem2 tr2 h
    simp [fuzzLoop] at h
  | succ fuel ih =>
    intro i ci vals mem tr core mem2 tr2 h
    simp only [fuzzLoop] at h
    repeat' split at h
    all_goals
      first
      | (cases h; rfl)
      | (exact (ih _ _ _ _ _ _ _ _ h).trans rfl)

/-- Claim C4: for every fuzz RPC that returns, the payload bytes in
shared memory are unchanged — the server fuzz handler only updates header
fields — so the client post-call comparison of the input bytes against
`mem.valueRef()` (whose failure is the fatal
`panic("workerServer.fuzz modified input")`, not a recoverable error)
always succeeds when the client placed those bytes there before the
call. -/
theorem c4_fuzz_input_unchanged (E : Ext) (args : FuzzArgs) (mem0 : SharedMem)
    (fuel : Nat) (resp : FuzzResponse) (mem2 : SharedMem)
    (tr : List (List GoVal))
    (hws : wsFuzz E args mem0 fuel = some (resp, mem2, tr)) :
    mem2.value = mem0.value ∧ fuzzInputModified mem0.value mem2 = false := by
  have hv : mem2.value = mem0.value := by
    simp only [wsFuzz] at hws
    split at hws
    · cases hws
    · split at hws
      · cases hws
      · split at hws
        · cases hws
        · split at hws
          · split at hws
            · cases hws
              rfl
            · cases hws
              rfl
          · split at hws
            · cases hws
            · rename_i core mem3 tr3 hloop
              cases hws
              have h2 := fuzzLoop_value E args _ fuel _ _ _ _ _ _ _ _ hloop
              exact h2
  exact ⟨hv, by simp [fuzzInputModified, hv]⟩

/-- Claim C4 witness: a fuzz call with limit 1 over an empty payload
returns with the payload intact and the client check passing. -/
theorem c4_fuzz_input_unchanged_witness :
    ([] : List Nat) = [] ∧
      fuzzInputModified [] (⟨1, 0, 0, []⟩ : SharedMem) = false :=
  c4_fuzz_input_unchanged extOk { Limit := 1 } ⟨0, 0, 0, []⟩ 1
    { TotalDuration := 0, Count := 1 } ⟨1, 0, 0, []⟩ [[]] rfl

/-- warmupExpected states, per claim C8, the warmup response fields
(InterestingDuration, CoverageData, Err) as a function of the single run
of the user function on the original decoded values: on an error only
`Err` is set; otherwise the run duration is reported and, when coverage
is enabled, the coverage snapshot. -/
def warmupExpected (E : Ext) (vals0 : List GoVal) :
    Nat × Option (List Nat) × String :=
  match E.fuzzFn vals0 with
  | some e => (0, none, errMsgOf e)
  | none =>
    (E.durAt 0,
      if E.coverageEnabled then some (E.covSnapAt 0 vals0) else none, "")

/-- Claim C8: a fuzz call with the Warmup flag runs the user function
exactly once, on the original decoded values, with no mutation step (the
trace of inputs passed to the user function is exactly the decoded
original), and the response carries InterestingDuration — and
CoverageData when coverage is enabled — unless that single run errors, in
which case only Err is set. -/
theorem c8_warmup_runs_once (E : Ext) (args : FuzzArgs) (mem0 : SharedMem)
    (fuel : Nat) (resp : FuzzResponse) (mem2 : SharedMem)
    (tr : List (List GoVal)) (vals0 : List GoVal)
    (hw : args.Warmup = true)
    (hu : E.unmarshal mem0.value = some vals0)
    (hws : wsFuzz E args mem0 fuel = some (resp, mem2, tr)) :
    tr = [vals0] ∧
      (resp.InterestingDuration, resp.CoverageData, resp.Err) =
        warmupExpected E vals0 := by
  simp only [wsFuzz, hw] at hws
  split at hws
  · cases hws
  · split at hws
    · cases hws
    · simp only [hu, fuzzOnce] at hws
      cases hfz : E.fuzzFn vals0 with
      | some e =>
        simp [hfz, errMsgOf_ne e] at hws
        obtain ⟨h1, h2, h3⟩ := hws
        subst h1
        subst h3
        simp [warmupExpected, hfz]
      | none =>
        simp [hfz] at hws
        obtain ⟨h1, h2, h3⟩ := hws
        subst h1
        subst h3
        simp [warmupExpected, hfz]

/-- Claim C8 witness: a warmup run whose single call errors with "boom"
reports only the error. -/
theorem c8_warmup_runs_once_witness :
    ([[]] : List (List GoVal)) = [[]] ∧
      ((0 : Nat), (none : Option (List Nat)), "boom") =
        warmupExpected extBoom [] :=
  c8_warmup_runs_once extBoom { Warmup := true } ⟨0, 0, 0, []⟩ 0
    { TotalDuration := 0, Count := 1, Err := "boom" } ⟨1, 0, 0, []⟩ [[]] []
    rfl rfl rfl

/- ===================== workerClient entry construction ============== -/

/-- CorpusEntry embeds the Go struct `CorpusEntry` (the serialized data,
the decoded values, and the ancestry metadata). -/
structure CorpusEntry where
  Parent : String := ""
  Path : String := ""
  Data : List Nat := []
  Values : List GoVal := []
  Generation : Int := 0
  IsSeed : Bool := false
deriving DecidableEq, Repr

/-- hexDigit is the lowercase hexadecimal digit for a value below 16. -/
def hexDigit (n : Nat) : Char :=
  if n < 10 then Char.ofNat (48 + n) else Char.ofNat (87 + n)

/-- hexByte renders one byte as two lowercase hex digits. -/
def hexByte (b : Nat) : List Char :=
  [hexDigit (b / 16 % 16), hexDigit (b % 16)]

/-- hexString models the Go formatting verb used by the client,
`fmt.Sprintf("%x", bs)`: each byte as two lowercase hex digits. -/
def hexString (bs : List Nat) : String :=
  String.mk (List.flatten (bs.map hexByte))

/-- pathOf embeds the content-addressed name computation shared by
`workerClient.fuzz` and `workerClient.minimize`:
`fmt.Sprintf("%x", sha256.Sum256(data)[:4])` — the first 4 bytes of the
SHA-256 digest of the data, hex-encoded. -/
def pathOf (E : Ext) (data : List Nat) : String :=
  hexString ((E.sha256 data).take 4)

/-- mutateReplay embeds the client loop that replays `count` mutations
from the restored PRNG state to reconstruct the values the worker
produced. -/
def mutateReplay (E : Ext) (n : Nat) (vals : List GoVal) : List GoVal :=
  (List.range n).foldl (fun vs i => E.mutate i vs) vals

/-- needEntryOut embeds the condition under which `workerClient.fuzz`
constructs an output corpus entry: a call error, a reported user error,
or new coverage outside warmup. -/
def needEntryOut (args : FuzzArgs) (callErr : Bool) (resp : FuzzResponse) :
    Bool :=
  callErr || decide (resp.Err ≠ "") ||
    (!args.Warmup && decide (resp.CoverageData ≠ none))

/-- clientFuzzPost embeds the part of `workerClient.fuzz` after the call
returns, with `mem` the post-call shared memory and `inp` the payload the
client wrote before the call: read the final count from the header,
verify the worker did not modify the input (`none` models the fatal
panic `workerServer.fuzz modified input`, not a recoverable error), and
when the response is interesting reconstruct the mutated values by
replaying the PRNG (no mutations in warmup), marshal them, and build the
output corpus entry; otherwise the zero entry is returned. -/
def clientFuzzPost (E : Ext) (entryIn : CorpusEntry) (args : FuzzArgs)
    (inp : List Nat) (mem : SharedMem) (callErr : Bool)
    (resp0 : FuzzResponse) : Option (CorpusEntry × FuzzResponse) :=
  let resp : FuzzResponse := { resp0 with Count := mem.count }
  if fuzzInputModified inp mem then none
  else if needEntryOut args callErr resp then
    match E.unmarshal inp with
    | none => none
    | some valuesOut0 =>
      let valuesOut :=
        if args.Warmup then valuesOut0
        else mutateReplay E mem.count.toNat valuesOut0
      let dataOut := E.marshal valuesOut
      some ({ Parent := entryIn.Path, Path := pathOf E dataOut,
              Data := dataOut, Generation := entryIn.Generation + 1,
              IsSeed := if args.Warmup then entryIn.IsSeed else false },
        resp)
  else some ({}, resp)

/-- clientMinimizePost embeds the part of `workerClient.minimize` after
the call returns: read the final count, and on success read the
minimized payload out of shared memory, decode it (`none` models the
panic on unmarshal failure), hash it for `Path`, and inherit `Parent`
and `Generation` from the input entry; on failure the original entry is
returned unchanged. -/
def clientMinimizePost (E : Ext) (entryIn : CorpusEntry) (mem : SharedMem)
    (resp0 : MinimizeResponse) : Option (CorpusEntry × MinimizeResponse) :=
  let resp : MinimizeResponse := { resp0 with Count := mem.count }
  if resp.Success then
    match E.unmarshal mem.value with
    | none => none
    | some vs =>
      some ({ Parent := entryIn.Parent, Path := pathOf E mem.value,
              Data := mem.value, Values := vs,
              Generation := entryIn.Generation }, resp)
  else some (entryIn, resp)

/-- Claim C6: every corpus entry produced by the worker client — on the
fuzz path when an output entry is constructed, and on the
successful-minimize path — has `Path` equal to the first 4 bytes of the
SHA-256 digest of its `Data`, hex-encoded. -/
theorem c6_path_content_addressed (E : Ext) (entryIn entryIn2 : CorpusEntry)
    (args : FuzzArgs) (inp : List Nat) (mem mem2 : SharedMem) (callErr : Bool)
    (respF : FuzzResponse) (respM : MinimizeResponse) (eF : CorpusEntry)
    (rF : FuzzResponse) (eM : CorpusEntry) (rM : MinimizeResponse)
    (hneed : needEntryOut args callErr respF = true)
    (hF : clientFuzzPost E entryIn args inp mem callErr respF = some (eF, rF))
    (hsucc : respM.Success = true)
    (hM : clientMinimizePost E entryIn2 mem2 respM = some (eM, rM)) :
    eF.Path = pathOf E eF.Data ∧ eM.Path = pathOf E eM.Data := by
  constructor
  · simp only [clientFuzzPost] at hF
    split at hF
    · cases hF
    · rw [if_pos (show needEntryOut args callErr
        { respF with Count := mem.count } = true from hneed)] at hF
      split at hF
      · cases hF
      · cases hF
        rfl
  · simp only [clientMinimizePost] at hM
    rw [if_pos (show MinimizeResponse.Success
      { respM with Count := mem2.count } = true from hsucc)] at hM
    split at hM
    · cases hM
    · cases hM
      rfl

/-- Claim C6 witness: concrete fuzz-path and minimize-path entries over
an empty payload. -/
theorem c6_path_content_addressed_witness :
    pathOf extBoom [] = pathOf extBoom [] ∧
      pathOf extBoom [] = pathOf extBoom [] :=
  c6_path_content_addressed extBoom {} {} {} [] ⟨0, 0, 0, []⟩ ⟨0, 0, 0, []⟩
    true {} { Success := true }
    { Path := pathOf extBoom [], Generation := 1 } {}
    { Path := pathOf extBoom [] } { Success := true }
    rfl rfl rfl rfl

/-- Claim C7: every entry produced by the fuzz client path has
`Generation = entryIn.Generation + 1`; every entry produced by the
successful-minimize client path preserves `Generation` and inherits
`Parent` from the input entry. -/
theorem c7_generation (E : Ext) (entryIn entryIn2 : CorpusEntry)
    (args : FuzzArgs) (inp : List Nat) (mem mem2 : SharedMem) (callErr : Bool)
    (respF : FuzzResponse) (respM : MinimizeResponse) (eF : CorpusEntry)
    (rF : FuzzResponse) (eM : CorpusEntry) (rM : MinimizeResponse)
    (hneed : needEntryOut args callErr respF = true)
    (hF : clientFuzzPost E entryIn args inp mem callErr respF = some (eF, rF))
    (hsucc : respM.Success = true)
    (hM : clientMinimizePost E entryIn2 mem2 respM = some (eM, rM)) :
    eF.Generation = entryIn.Generation + 1 ∧
      eM.Generation = entryIn2.Generation ∧ eM.Parent = entryIn2.Parent := by
  refine ⟨?_, ?_, ?_⟩
  · simp only [clientFuzzPost] at hF
    split at hF
    · cases hF
    · rw [if_pos (show needEntryOut args callErr
        { respF with Count := mem.count } = true from hneed)] at hF
      split at hF
      · cases hF
      · cases hF
        rfl
  all_goals
    simp only [clientMinimizePost] at hM
    rw [if_pos (show MinimizeResponse.Success
      { respM with Count := mem2.count } = true from hsucc)] at hM
    split at hM
    · cases hM
    · cases hM
      rfl

/-- Claim C7 witness: the concrete fuzz-path entry has generation one
more than its parent; the concrete minimized entry keeps generation and
parent. -/
theorem c7_generation_witness :
    (1 : Int) = 0 + 1 ∧ (0 : Int) = 0 ∧ ("" : String) = "" :=
  c7_generation extBoom {} {} {} [] ⟨0, 0, 0, []⟩ ⟨0, 0, 0, []⟩
    true {} { Success := true }
    { Path := pathOf extBoom [], Generation := 1 } {}
    { Path := pathOf extBoom [] } { Success := true }
    rfl rfl rfl rfl

/- ===================== worker.minimize and coordinate =============== -/

/-- FuzzResult embeds the Go struct `fuzzResult` (the fields used by the
minimize flow). -/
structure FuzzResult where
  entry : CorpusEntry := {}
  crasherMsg : String := ""
  canMinimize : Bool := false
  limit : Int := 0
  count : Int := 0
  totalDuration : Nat := 0
  entryDuration : Nat := 0
  coverageData : Option (List Nat) := none
deriving DecidableEq, Repr

/-- FuzzMinimizeInput embeds the fields of `fuzzMinimizeInput` consumed
by `worker.minimize` and `worker.coordinate`. -/
structure FuzzMinimizeInput where
  entry : CorpusEntry := {}
  crasherMsg : String := ""
  limit : Int := 0
  timeout : Nat := 0
  keepCoverage : Option (List Nat) := none
deriving DecidableEq, Repr

/-- workerMinimizeResult embeds the post-RPC logic of `worker.minimize`
given the worker client outcome `(entry, resp, err)` and the observed
worker state: on a communication error, the original input is returned
unchanged when the worker was interrupted or the context expired, and an
error is returned otherwise; if the RPC succeeded but the input had a
crasher message while the response carries no error and no success, fail
with "attempted to minimize but could not reproduce"; otherwise build
the minimized result with `canMinimize = false`. -/
def workerMinimizeResult (input : FuzzMinimizeInput) (entry : CorpusEntry)
    (resp : MinimizeResponse) (commErr : Bool)
    (ctxErr interrupted waitInterrupt : Bool) (waitErrMsg : String) :
    Except String FuzzResult :=
  if commErr then
    if ctxErr || interrupted || waitInterrupt then
      Except.ok { entry := input.entry, crasherMsg := input.crasherMsg,
                  coverageData := input.keepCoverage, canMinimize := false,
                  limit := input.limit }
    else
      Except.error
        ("fuzzing process terminated unexpectedly while minimizing: "
          ++ waitErrMsg)
  else if decide (input.crasherMsg ≠ "") && decide (resp.Err = "")
      && !resp.Success then
    Except.error "attempted to minimize but could not reproduce"
  else
    Except.ok { entry := entry, crasherMsg := resp.Err,
                coverageData := resp.CoverageData, canMinimize := false,
                limit := input.limit, count := resp.Count,
                totalDuration := resp.Duration }

/-- coordinateMinimizeCase embeds the minimize arm of the select in
`worker.coordinate`: an error from `worker.minimize` is converted into a
result carrying the original entry with `canMinimize = false`; the error
text becomes the crasher message only when the original had none. -/
def coordinateMinimizeCase (input : FuzzMinimizeInput)
    (r : Except String FuzzResult) : FuzzResult :=
  match r with
  | Except.ok res => res
  | Except.error e =>
    let res : FuzzResult := { entry := input.entry,
                              crasherMsg := input.crasherMsg,
                              canMinimize := false, limit := input.limit }
    if res.crasherMsg = "" then { res with crasherMsg := e } else res

/-- Claim C10: when the minimize RPC itself succeeds but crash
minimization flaked — a non-empty input crasher message with an empty
response `Err` and `Success = false` — `worker.minimize` returns the
error "attempted to minimize but could not reproduce"; `coordinate` then
fabricates a `fuzzResult` from the original entry with
`canMinimize = false`, keeping the original crasher message (and, in
general, using the error text as crasher message exactly when the
original had none). -/
theorem c10_minimize_flake (input : FuzzMinimizeInput) (entry : CorpusEntry)
    (resp : MinimizeResponse) (ctxErr interrupted waitInterrupt : Bool)
    (waitErrMsg : String) (input2 : FuzzMinimizeInput) (e2 : String)
    (hmsg : input.crasherMsg ≠ "") (herr : resp.Err = "")
    (hsucc : resp.Success = false) (hmsg2 : input2.crasherMsg = "") :
    workerMinimizeResult input entry resp false ctxErr interrupted
        waitInterrupt waitErrMsg =
      Except.error "attempted to minimize but could not reproduce" ∧
      coordinateMinimizeCase input
          (workerMinimizeResult input entry resp false ctxErr interrupted
            waitInterrupt waitErrMsg) =
        { entry := input.entry, crasherMsg := input.crasherMsg,
          canMinimize := false, limit := input.limit } ∧
      (coordinateMinimizeCase input2 (Except.error e2)).crasherMsg = e2 := by
  have h1 : workerMinimizeResult input entry resp false ctxErr interrupted
      waitInterrupt waitErrMsg =
      Except.error "attempted to minimize but could not reproduce" := by
    simp [workerMinimizeResult, hmsg, herr, hsucc]
  refine ⟨h1, ?_, ?_⟩
  · rw [h1]
    simp [coordinateMinimizeCase, hmsg]
  · simp [coordinateMinimizeCase, hmsg2]

/-- Claim C10 witness: a flaked crash minimization of an input whose
crasher message is "boom", and the fabricated message for an input with
no crasher message. -/
theorem c10_minimize_flake_witness :
    workerMinimizeResult { crasherMsg := "boom" } {} {} false false false
        false "" =
      Except.error "attempted to minimize but could not reproduce" ∧
      coordinateMinimizeCase { crasherMsg := "boom" }
          (workerMinimizeResult { crasherMsg := "boom" } {} {} false false
            false false "") =
        { entry := {}, crasherMsg := "boom", canMinimize := false,
          limit := 0 } ∧
      (coordinateMinimizeCase {} (Except.error "xx")).crasherMsg = "xx" :=
  c10_minimize_flake { crasherMsg := "boom" } {} {} false false false ""
    {} "xx" (by decide) rfl rfl rfl

end FuzzWorker
